import Mathlib

/-!
Verification of the calendar repository: a shallow embedding of its four
Python scripts (holiday date resolver, Google-Calendar create and cleanup
loops, ICS event normalizer) together with theorems checking the
natural-language specification against the code.

Conventions of the embedding:
* Python `int` is `Int`.
* `datetime.date(y, m, d)` is modelled by `dateConstruct`: arguments that do
  not fit a C int raise `OverflowError` (uncaught by the scripts), in-range
  but invalid dates raise `ValueError` (caught by the scripts' scan loop).
* A function that can crash with an uncaught exception returns `Except Unit α`
  (`.error ()` = the exception propagates) or `Option` where a caught
  exception turns the record into a skip.
-/

namespace Calendar

instance {ε α : Type} [DecidableEq ε] [DecidableEq α] : DecidableEq (Except ε α) := fun x y =>
  match x, y with
  | .ok a, .ok b =>
    if h : a = b then .isTrue (congrArg Except.ok h)
    else .isFalse (fun hx => h (Except.ok.inj hx))
  | .error a, .error b =>
    if h : a = b then .isTrue (congrArg Except.error h)
    else .isFalse (fun hx => h (Except.error.inj hx))
  | .ok _, .error _ => .isFalse (fun hx => Except.noConfusion hx)
  | .error _, .ok _ => .isFalse (fun hx => Except.noConfusion hx)

/-- Proleptic-Gregorian leap-year test, as CPython's `datetime` computes it. -/
def isLeap (y : Int) : Bool :=
  (y % 4 == 0 && y % 100 != 0) || y % 400 == 0

/-- Number of days of month `m` of year `y` (0 for an out-of-range month). -/
def daysInMonth (y m : Int) : Int :=
  if m = 1 then 31
  else if m = 2 then (if isLeap y then 29 else 28)
  else if m = 3 then 31
  else if m = 4 then 30
  else if m = 5 then 31
  else if m = 6 then 30
  else if m = 7 then 31
  else if m = 8 then 31
  else if m = 9 then 30
  else if m = 10 then 31
  else if m = 11 then 30
  else if m = 12 then 31
  else 0

/-- Days of year `y` that precede month `m` (the cumulative month lengths). -/
def daysBeforeMonth (y m : Int) : Int :=
  if m = 1 then 0
  else if m = 2 then 31
  else
    (if m = 3 then 59
     else if m = 4 then 90
     else if m = 5 then 120
     else if m = 6 then 151
     else if m = 7 then 181
     else if m = 8 then 212
     else if m = 9 then 243
     else if m = 10 then 273
     else if m = 11 then 304
     else if m = 12 then 334
     else 0) + (if isLeap y then 1 else 0)

/-- Days before January 1st of year `y` in the proleptic Gregorian calendar
(CPython's `_days_before_year`). -/
def daysBeforeYear (y : Int) : Int :=
  365 * (y - 1) + (y - 1) / 4 - (y - 1) / 100 + (y - 1) / 400

/-- CPython's `date.toordinal`: 0001-01-01 has ordinal 1. -/
def ordinalOf (y m d : Int) : Int :=
  daysBeforeYear y + daysBeforeMonth y m + d

/-- CPython's `date.weekday`: Monday = 0, ..., Sunday = 6. -/
def weekdayOf (y m d : Int) : Int :=
  (ordinalOf y m d - 1) % 7

/-- The range CPython's `datetime.date` constructor accepts: year within
`MINYEAR..MAXYEAR` (1..9999), month 1..12, day within the month. -/
def validDate (y m d : Int) : Bool :=
  1 ≤ y && y ≤ 9999 && 1 ≤ m && m ≤ 12 && 1 ≤ d && d ≤ daysInMonth y m

/-- Whether a Python int fits in a C int; `datetime.date` converts each of its
three arguments to a C int and raises `OverflowError` otherwise. -/
def fitsCInt (x : Int) : Bool :=
  -(2 ^ 31) ≤ x && x ≤ 2 ^ 31 - 1

/-- A `datetime.date` value. -/
structure PyDate where
  year : Int
  month : Int
  day : Int
  deriving DecidableEq, Repr

/-- Outcome of `datetime.date(y, m, d)`. -/
inductive DateResult where
  | ok (d : PyDate)
  | valueError
  | overflowError
  deriving DecidableEq, Repr

/-- `datetime.date(y, m, d)`: `OverflowError` when an argument does not fit a
C int, `ValueError` when the date is out of range, the date otherwise. -/
def dateConstruct (y m d : Int) : DateResult :=
  if fitsCInt y && fitsCInt m && fitsCInt d then
    if validDate y m d then .ok ⟨y, m, d⟩ else .valueError
  else .overflowError

/-- The scan loop of `get_nth_weekday`, structurally recursive on the number
of days left to try.  `count` is the running count of weekday matches, `day`
the next candidate day.  A `ValueError` breaks the loop (result `none`); an
`OverflowError` is uncaught (`Except.error ()`). -/
def nthWeekdayGo (y m w n : Int) (count day : Int) : Nat → Except Unit (Option PyDate)
  | 0 => .ok none
  | f + 1 =>
    if fitsCInt y && fitsCInt m && fitsCInt day then
      if validDate y m day then
        if weekdayOf y m day = w then
          if count + 1 = n then .ok (some ⟨y, m, day⟩)
          else nthWeekdayGo y m w n (count + 1) (day + 1) f
        else nthWeekdayGo y m w n count (day + 1) f
      else .ok none
    else .error ()

/-- `get_nth_weekday(year, month, weekday, n)` from
`add_mothers_and_fathers_day_google_api.py` (the copy in
`mothers_and_fathers_day_generator_100_years.py` is identical up to
using `datetime` instead of `date`): scan days 1..31, counting days whose
weekday is `weekday`, returning the date at which the count reaches `n`;
`ValueError` ends the scan with `None`. -/
def get_nth_weekday (year month weekday n : Int) : Except Unit (Option PyDate) :=
  nthWeekdayGo year month weekday n 0 1 31

/-- The list `[d, d+1, ..., d+f-1]`. -/
def intRange (d : Int) : Nat → List Int
  | 0 => []
  | f + 1 => d :: intRange (d + 1) f

/-- The days of month `m` of year `y`, among 1..31 in calendar order, whose
weekday is `w`: the reference list the resolver's result is compared with. -/
def monthMatches (y m w : Int) : List Int :=
  (intRange 1 31).filter (fun x => validDate y m x && weekdayOf y m x == w)

/-- The prefix of matching days the scan sees, starting at day `d` with `f`
days of fuel: it stops at the first invalid day. -/
def matchesIn (y m w : Int) (d : Int) : Nat → List Int
  | 0 => []
  | f + 1 =>
    if validDate y m d then
      if weekdayOf y m d = w then d :: matchesIn y m w (d + 1) f
      else matchesIn y m w (d + 1) f
    else []

/-! ### Google-Calendar create loop (`add_mothers_and_fathers_day_google_api.py`) -/

/-- An event body as the create script serializes it: `summary`,
all-day `start`/`end` dates and an optional `colorId`. -/
structure GCalEvent where
  summary : String
  startDate : PyDate
  endDate : PyDate
  colorId : Option String
  deriving DecidableEq, Repr

/-- `d + datetime.timedelta(days=1)`. -/
def nextDay (d : PyDate) : PyDate :=
  if d.day + 1 ≤ daysInMonth d.year d.month then ⟨d.year, d.month, d.day + 1⟩
  else if d.month + 1 ≤ 12 then ⟨d.year, d.month + 1, 1⟩
  else ⟨d.year + 1, 1, 1⟩

/-- The event body built for one holiday (the dict literal of the script):
title, all-day start, exclusive end one day later, `colorId` `"5"` (yellow). -/
def mkParentsEvent (title : String) (d : PyDate) : GCalEvent :=
  ⟨title, d, nextDay d, some "5"⟩

/-- One iteration of the year loop of `add_parents_days`: the two events the
script builds and inserts for `year`, Mother's Day first; `none` when a
resolver result is `None` or an exception escapes (nothing catches either:
the script would crash on `None.isoformat()`). -/
def yearParentsEvents (year : Int) : Option (List GCalEvent) :=
  match get_nth_weekday year 5 6 2, get_nth_weekday year 6 6 3 with
  | .ok (some md), .ok (some fd) =>
      some [mkParentsEvent "Mother\x27s Day" md, mkParentsEvent "Father\x27s Day" fd]
  | _, _ => none

/-- The year loop, structurally recursive on the number of years left. -/
def addParentsDaysLoop (year : Int) : Nat → Option (List GCalEvent)
  | 0 => some []
  | k + 1 =>
    match yearParentsEvents year with
    | none => none
    | some evs => (addParentsDaysLoop (year + 1) k).map (fun rest => evs ++ rest)

/-- `add_parents_days(service, calendar_id, start_year, end_year)`: the full
sequence of insert calls the script issues, in order.  The script never lists
the remote calendar: the inserts depend only on the year range. -/
def add_parents_days (startYear endYear : Int) : Option (List GCalEvent) :=
  addParentsDaysLoop startYear (endYear + 1 - startYear).toNat

/-- One create-mode run against remote state `remote`: the script issues its
inserts unconditionally and the remote calendar accumulates them.  Returns
(inserts issued, new remote state). -/
def syncRunCreate (remote : List GCalEvent) (startYear endYear : Int) :
    Option (List GCalEvent × List GCalEvent) :=
  (add_parents_days startYear endYear).map (fun ins => (ins, remote ++ ins))

/-- Sequential insertion against a gateway that succeeds or fails per event.
Returns the events for which an insert call was attempted and whether the
loop ran to completion: `add_parents_days` wraps no try/except around
`service.events().insert(...).execute()`, so the first gateway failure
propagates and aborts the loop. -/
def runInsertsSeq (gateway : GCalEvent → Bool) :
    List GCalEvent → List GCalEvent × Bool
  | [] => ([], true)
  | e :: es =>
    if gateway e then
      let r := runInsertsSeq gateway es
      (e :: r.1, r.2)
    else ([e], false)

/-- `add_parents_days` run against a fallible gateway. -/
def add_parents_days_against (gateway : GCalEvent → Bool)
    (startYear endYear : Int) : Option (List GCalEvent × Bool) :=
  (add_parents_days startYear endYear).map (runInsertsSeq gateway)

/-! ### Cleanup loop (`remove_mothers_and_fathers_day_not_yellow_google_api.py`) -/

/-- A listed remote event as the cleanup script reads it:
`event.get('summary', '')`, `event.get('colorId', None)`, `event['id']`. -/
structure RemoteEvent where
  id : String
  summary : Option String
  colorId : Option String
  deriving DecidableEq, Repr

/-- The loop of `delete_non_yellow_parents_days` over the listed events: the
events for which a delete call is issued, in order.  An event is deleted iff
its title is Mother's Day or Father's Day and its `colorId` (absent = `None`)
differs from `'5'`. -/
def delete_non_yellow_parents_days : List RemoteEvent → List RemoteEvent
  | [] => []
  | e :: es =>
    if e.summary.getD "" = "Mother\x27s Day" ∨ e.summary.getD "" = "Father\x27s Day" then
      if e.colorId ≠ some "5" then e :: delete_non_yellow_parents_days es
      else delete_non_yellow_parents_days es
    else delete_non_yellow_parents_days es

/-! ### ICS normalizer (`invite_to_google_calendar.py`) -/

/-- A `dtstart`/`dtend` value as icalendar's `.dt` delivers it: a bare
`datetime.date`, or a `datetime.datetime` with an optional fixed-offset
timezone (in minutes). -/
inductive DtValue where
  | vdate (d : PyDate)
  | vdatetime (d : PyDate) (hour minute : Int) (tzOffset : Option Int)
  deriving DecidableEq, Repr

/-- A VEVENT record as `extract_event_data` reads it. -/
structure VEvent where
  summary : Option String
  description : Option String
  location : Option String
  dtstart : Option DtValue
  dtend : Option DtValue
  deriving DecidableEq, Repr

/-- A computed `start_time`/`end_time`, kept structured: the content of an
aware datetime's `isoformat()` string, or of a `strftime('%Y-%m-%d')` date. -/
inductive TimeVal where
  | dateTime (d : PyDate) (hour minute : Int) (tzOffset : Int)
  | dateOnly (d : PyDate)
  deriving DecidableEq, Repr

/-- The dict `extract_event_data` returns. -/
structure EventData where
  summary : String
  description : String
  location : String
  start_time : TimeVal
  end_time : TimeVal
  all_day : Bool
  deriving DecidableEq, Repr

/-- `start_dt + timedelta(hours=1)` on a (possibly aware) datetime:
wall-clock plus one hour, rolling over midnight. -/
def addOneHour (d : PyDate) (hour minute : Int) : PyDate × Int × Int :=
  if hour + 1 ≤ 23 then (d, hour + 1, minute) else (nextDay d, 0, minute)

/-- `extract_event_data(vevent)`: `none` models "record dropped", covering
both the explicit `return None` for a missing `dtstart` and any exception
caught by the function's blanket `except`. -/
def extract_event_data (localTz : Int) (v : VEvent) : Option EventData :=
  let summary := v.summary.getD "No Title"
  let description := v.description.getD ""
  let location := v.location.getD ""
  match v.dtstart with
  | none => none
  | some (DtValue.vdate _) =>
      -- a bare date has no tzinfo attribute, so the code runs
      -- start_dt.replace(tzinfo=tz.tzlocal()); date.replace rejects the
      -- tzinfo keyword, and the TypeError is caught: record dropped
      none
  | some (DtValue.vdatetime d hour minute tzo) =>
      let start_time := TimeVal.dateTime d hour minute (tzo.getD localTz)
      let endTime? : Option TimeVal :=
        match v.dtend with
        | some (DtValue.vdate _) => none  -- same TypeError on end_dt.replace
        | some (DtValue.vdatetime d2 h2 mi2 tzo2) =>
            some (TimeVal.dateTime d2 h2 mi2 (tzo2.getD localTz))
        | none =>
            -- end_dt = start_dt + timedelta(hours=1), then
            -- end_dt.replace(tzinfo=tz.tzlocal()): wall clock +1h, tz := local
            let r := addOneHour d hour minute
            some (TimeVal.dateTime r.1 r.2.1 r.2.2 localTz)
      match endTime? with
      | none => none
      | some end_time =>
          -- `hasattr(dtstart.dt, 'date') and not hasattr(dtstart.dt, 'time')`
          -- is False for a datetime, so all_day stays False
          some ⟨summary, description, location, start_time, end_time, false⟩

/-- The VEVENT loop of `parse_ics_file`: records whose extraction returns
`None` are dropped, the rest are collected in order. -/
def parse_ics_file (localTz : Int) : List VEvent → List EventData
  | [] => []
  | v :: vs =>
    match extract_event_data localTz v with
    | some ed => ed :: parse_ics_file localTz vs
    | none => parse_ics_file localTz vs

/-- `create_google_event`: the insert either succeeds (the created event) or
fails; `HttpError` and any other exception are caught inside, so the caller
always gets a value back. -/
def create_google_event (gateway : EventData → Bool) (ed : EventData) :
    Option EventData :=
  if gateway ed then some ed else none

/-- The insert loop of `process_ics_file`: every event is attempted
regardless of earlier failures, and successes are counted.  Returns the
attempted events in order and `success_count`. -/
def process_ics_events (gateway : EventData → Bool) :
    List EventData → List EventData × Nat
  | [] => ([], 0)
  | e :: es =>
    let r := create_google_event gateway e
    let rest := process_ics_events gateway es
    (e :: rest.1, (if r.isSome then 1 else 0) + rest.2)

/-- Minutes since the proleptic-Gregorian epoch denoted by a computed time
value; for an aware datetime this is the instant its `isoformat()` string
denotes. -/
def instantMinutes : TimeVal → Int
  | .dateTime d h mi tzOff =>
      ordinalOf d.year d.month d.day * 1440 + h * 60 + mi - tzOff
  | .dateOnly d => ordinalOf d.year d.month d.day * 1440

/-- The two holiday events of 2025 as the create script builds them. -/
def parentsEvents2025 : List GCalEvent :=
  [mkParentsEvent "Mother\x27s Day" ⟨2025, 5, 11⟩,
   mkParentsEvent "Father\x27s Day" ⟨2025, 6, 15⟩]

/-- A gateway that rejects the Mother's Day insert and accepts the rest. -/
def failMothersGateway (e : GCalEvent) : Bool :=
  !(e.summary == "Mother\x27s Day")

/-- The condition under which the cleanup loop issues a delete call: a title
of interest with a marker other than the reserved `'5'`. -/
def cleanupTargets (e : RemoteEvent) : Prop :=
  (e.summary.getD "" = "Mother\x27s Day" ∨ e.summary.getD "" = "Father\x27s Day") ∧
    e.colorId ≠ some "5"

instance : DecidablePred cleanupTargets := fun e => by
  unfold cleanupTargets; infer_instance

/-! ### Lemmas about the resolver's scan -/

lemma fitsCInt_of_bounds {x : Int} (h1 : -(2 ^ 31) ≤ x) (h2 : x ≤ 2 ^ 31 - 1) :
    fitsCInt x = true := by
  simp only [fitsCInt, Bool.and_eq_true, decide_eq_true_eq]
  exact ⟨h1, h2⟩

lemma intRange_mem : ∀ {f : Nat} {d x : Int}, x ∈ intRange d f → d ≤ x := by
  intro f
  induction f with
  | zero => intro d x h; simp [intRange] at h
  | succ f ih =>
      intro d x h
      simp only [intRange, List.mem_cons] at h
      rcases h with h | h
      · omega
      · have := ih h; omega

lemma matchesIn_mem {y m w : Int} :
    ∀ {f : Nat} {d x : Int}, x ∈ matchesIn y m w d f →
      validDate y m x = true ∧ weekdayOf y m x = w := by
  intro f
  induction f with
  | zero => intro d x h; simp [matchesIn] at h
  | succ f ih =>
      intro d x h
      simp only [matchesIn] at h
      by_cases hv : validDate y m d = true
      · rw [if_pos hv] at h
        by_cases hw : weekdayOf y m d = w
        · rw [if_pos hw] at h
          rcases List.mem_cons.mp h with h | h
          · subst h; exact ⟨hv, hw⟩
          · exact ih h
        · rw [if_neg hw] at h; exact ih h
      · rw [if_neg hv] at h; simp at h

lemma nthWeekdayGo_none_of_le {y m w n : Int}
    (hy : fitsCInt y = true) (hm : fitsCInt m = true) :
    ∀ (f : Nat) (d count : Int), 1 ≤ d → d + (f : Int) ≤ 32 → n ≤ count →
      nthWeekdayGo y m w n count d f = .ok none := by
  intro f
  induction f with
  | zero => intro d count _ _ _; rfl
  | succ f ih =>
      intro d count hd hdf hn
      have hdf' : d + (f : Int) + 1 ≤ 32 := by push_cast at hdf; omega
      have hfd : fitsCInt d = true := fitsCInt_of_bounds (by omega) (by omega)
      rw [nthWeekdayGo, if_pos (by rw [hy, hm, hfd]; rfl)]
      by_cases hv : validDate y m d = true
      · rw [if_pos hv]
        by_cases hw : weekdayOf y m d = w
        · rw [if_pos hw, if_neg (by omega)]
          exact ih (d + 1) (count + 1) (by omega) (by omega) (by omega)
        · rw [if_neg hw]
          exact ih (d + 1) count (by omega) (by omega) hn
      · rw [if_neg hv]

lemma nthWeekdayGo_eq {y m w n : Int}
    (hy : fitsCInt y = true) (hm : fitsCInt m = true) :
    ∀ (f : Nat) (d count : Int), 1 ≤ d → d + (f : Int) ≤ 32 → count < n →
      nthWeekdayGo y m w n count d f =
        .ok (((matchesIn y m w d f).get? (n - count - 1).toNat).map
              (fun x => (⟨y, m, x⟩ : PyDate))) := by
  intro f
  induction f with
  | zero => intro d count _ _ _; rfl
  | succ f ih =>
      intro d count hd hdf hcn
      have hdf' : d + (f : Int) + 1 ≤ 32 := by push_cast at hdf; omega
      have hfd : fitsCInt d = true := fitsCInt_of_bounds (by omega) (by omega)
      rw [nthWeekdayGo, if_pos (by rw [hy, hm, hfd]; rfl), matchesIn]
      by_cases hv : validDate y m d = true
      · rw [if_pos hv, if_pos hv]
        by_cases hw : weekdayOf y m d = w
        · rw [if_pos hw, if_pos hw]
          by_cases hhit : count + 1 = n
          · rw [if_pos hhit]
            have h0 : (n - count - 1).toNat = 0 := by omega
            rw [h0, List.get?_cons_zero]
            rfl
          · rw [if_neg hhit]
            have hidx : (n - count - 1).toNat = (n - (count + 1) - 1).toNat + 1 := by
              omega
            rw [hidx, List.get?_cons_succ]
            exact ih (d + 1) (count + 1) (by omega) (by omega) (by omega)
        · rw [if_neg hw, if_neg hw]
          exact ih (d + 1) count (by omega) (by omega) hcn
      · rw [if_neg hv, if_neg hv]
        rfl

lemma validDate_iff {y m : Int} (hy1 : 1 ≤ y) (hy2 : y ≤ 9999)
    (hm1 : 1 ≤ m) (hm2 : m ≤ 12) (d : Int) :
    validDate y m d = true ↔ 1 ≤ d ∧ d ≤ daysInMonth y m := by
  simp only [validDate, Bool.and_eq_true, decide_eq_true_eq]
  constructor
  · rintro ⟨⟨_, _⟩, _⟩; omega
  · intro h
    exact ⟨⟨⟨⟨⟨hy1, hy2⟩, hm1⟩, hm2⟩, h.1⟩, h.2⟩

lemma matchesIn_eq_filter {y m w : Int} (hy1 : 1 ≤ y) (hy2 : y ≤ 9999)
    (hm1 : 1 ≤ m) (hm2 : m ≤ 12) :
    ∀ (f : Nat) (d : Int), 1 ≤ d →
      matchesIn y m w d f =
        (intRange d f).filter (fun x => validDate y m x && weekdayOf y m x == w) := by
  intro f
  induction f with
  | zero => intro d _; rfl
  | succ f ih =>
      intro d hd
      by_cases hv : validDate y m d = true
      · rw [matchesIn, if_pos hv]
        show _ = (d :: intRange (d + 1) f).filter _
        rw [List.filter_cons]
        by_cases hw : weekdayOf y m d = w
        · have hc : (validDate y m d && weekdayOf y m d == w) = true := by
            simp [hv, hw]
          rw [if_pos hw, hc, ih (d + 1) (by omega)]
          simp
        · have hc : (validDate y m d && weekdayOf y m d == w) = false := by
            simp [hv, hw]
          rw [if_neg hw, hc, ih (d + 1) (by omega)]
          simp
      · rw [matchesIn, if_neg hv]
        have hbig : daysInMonth y m < d := by
          by_contra hle
          exact hv ((validDate_iff hy1 hy2 hm1 hm2 d).mpr ⟨hd, by omega⟩)
        have hall : ∀ x ∈ intRange d (f + 1),
            ¬((validDate y m x && weekdayOf y m x == w) = true) := by
          intro x hx
          have hdx : d ≤ x := intRange_mem hx
          have hvx : validDate y m x = false := by
            cases hxx : validDate y m x
            · rfl
            · have := (validDate_iff hy1 hy2 hm1 hm2 x).mp hxx
              omega
          simp [hvx]
        exact (List.filter_eq_nil_iff.mpr hall).symm

/-- The resolver agrees with indexing into the ordered list of matching days
of the month. -/
lemma get_nth_weekday_eq {y m w n : Int} (hy1 : 1 ≤ y) (hy2 : y ≤ 9999)
    (hm1 : 1 ≤ m) (hm2 : m ≤ 12) (hn : 1 ≤ n) :
    get_nth_weekday y m w n =
      .ok (((monthMatches y m w).get? (n - 1).toNat).map
            (fun x => (⟨y, m, x⟩ : PyDate))) := by
  have hfy : fitsCInt y = true := fitsCInt_of_bounds (by omega) (by omega)
  have hfm : fitsCInt m = true := fitsCInt_of_bounds (by omega) (by omega)
  rw [get_nth_weekday, nthWeekdayGo_eq hfy hfm 31 1 0 (by omega) (by norm_num)
    (by omega)]
  rw [matchesIn_eq_filter hy1 hy2 hm1 hm2 31 1 (by omega)]
  norm_num [monthMatches]

/-! ### Lemmas about the cleanup loop -/

lemma delete_non_yellow_eq_filter (evs : List RemoteEvent) :
    delete_non_yellow_parents_days evs =
      evs.filter (fun e => decide (cleanupTargets e)) := by
  induction evs with
  | nil => rfl
  | cons e es ih =>
      rw [delete_non_yellow_parents_days, List.filter_cons]
      by_cases ht : e.summary.getD "" = "Mother\x27s Day" ∨
          e.summary.getD "" = "Father\x27s Day"
      · rw [if_pos ht]
        by_cases hc : e.colorId = some "5"
        · rw [if_neg (by simp [hc])]
          have hd : decide (cleanupTargets e) = false := by
            simp [cleanupTargets, hc]
          rw [hd, if_neg (by simp), ih]
        · rw [if_pos hc]
          have hd : decide (cleanupTargets e) = true := by
            simp [cleanupTargets, hc]
            exact ht
          rw [hd, if_pos rfl, ih]
      · rw [if_neg ht]
        have hd : decide (cleanupTargets e) = false := by
          simp only [decide_eq_false_iff_not, cleanupTargets]
          intro hcontra
          exact ht hcontra.1
        rw [hd, if_neg (by simp), ih]

lemma mem_delete_non_yellow {evs : List RemoteEvent} {e : RemoteEvent}
    (h : e ∈ delete_non_yellow_parents_days evs) : e ∈ evs ∧ cleanupTargets e := by
  rw [delete_non_yellow_eq_filter] at h
  have hm := List.mem_filter.mp h
  exact ⟨hm.1, of_decide_eq_true hm.2⟩

/-! ### Lemmas about the ICS import loops -/

lemma process_ics_events_eq (gw : EventData → Bool) (evs : List EventData) :
    process_ics_events gw evs = (evs, (evs.filter gw).length) := by
  induction evs with
  | nil => rfl
  | cons e es ih =>
      rw [process_ics_events, ih, List.filter_cons]
      cases h : gw e
      · simp [create_google_event, h]
      · simp [create_google_event, h]
        omega

lemma extract_none_of_no_dtstart (localTz : Int) (v : VEvent)
    (h : v.dtstart = none) : extract_event_data localTz v = none := by
  unfold extract_event_data
  rw [h]

lemma parse_ics_file_append (localTz : Int) (xs ys : List VEvent) :
    parse_ics_file localTz (xs ++ ys) =
      parse_ics_file localTz xs ++ parse_ics_file localTz ys := by
  induction xs with
  | nil => rfl
  | cons v vs ih =>
      rw [List.cons_append, parse_ics_file, parse_ics_file]
      cases extract_event_data localTz v
      · exact ih
      · rw [ih]
        rfl

lemma parse_ics_file_skip_cons (localTz : Int) (v : VEvent) (vs : List VEvent)
    (h : extract_event_data localTz v = none) :
    parse_ics_file localTz (v :: vs) = parse_ics_file localTz vs := by
  rw [parse_ics_file, h]

/-! ### Lemmas about date arithmetic and the normalizer -/

lemma ordinalOf_nextDay {y m dd : Int} (h : validDate y m dd = true) :
    ordinalOf (nextDay ⟨y, m, dd⟩).year (nextDay ⟨y, m, dd⟩).month
        (nextDay ⟨y, m, dd⟩).day =
      ordinalOf y m dd + 1 := by
  simp only [validDate, Bool.and_eq_true, decide_eq_true_eq] at h
  obtain ⟨⟨⟨⟨⟨hy1, hy2⟩, hm1⟩, hm2⟩, hd1⟩, hd2⟩ := h
  simp only [nextDay]
  by_cases hrd : dd + 1 ≤ daysInMonth y m
  · rw [if_pos hrd]
    simp only [ordinalOf]
    ring
  · rw [if_neg hrd]
    have hdd : dd = daysInMonth y m := by omega
    by_cases hrm : m + 1 ≤ 12
    · rw [if_pos hrm]
      simp only [ordinalOf]
      have key : daysBeforeMonth y (m + 1) = daysBeforeMonth y m + daysInMonth y m := by
        have hm11 : m ≤ 11 := by omega
        interval_cases m <;> cases hL : isLeap y <;>
          norm_num [daysBeforeMonth, daysInMonth, hL]
      omega
    · rw [if_neg hrm]
      have hm12 : m = 12 := by omega
      subst hm12
      have hdd31 : dd = 31 := by
        norm_num [daysInMonth] at hdd
        exact hdd
      subst hdd31
      simp only [ordinalOf]
      have h1 : daysBeforeMonth (y + 1) 1 = 0 := by norm_num [daysBeforeMonth]
      have h12 : daysBeforeMonth y 12 = 334 + (if isLeap y then 1 else 0) := by
        norm_num [daysBeforeMonth]
      rw [h1, h12]
      have hiff : isLeap y = true ↔ ((y % 4 = 0 ∧ y % 100 ≠ 0) ∨ y % 400 = 0) := by
        simp [isLeap, Bool.or_eq_true, Bool.and_eq_true, beq_iff_eq, bne_iff_ne]
      simp only [daysBeforeYear]
      cases hL : isLeap y
      · have hnl : ¬((y % 4 = 0 ∧ y % 100 ≠ 0) ∨ y % 400 = 0) := fun hc =>
          absurd (hiff.mpr hc) (by simp [hL])
        rw [if_neg (by simp [hL])]
        omega
      · have hl : (y % 4 = 0 ∧ y % 100 ≠ 0) ∨ y % 400 = 0 := hiff.mp hL
        rw [if_pos (by simp [hL])]
        omega

lemma extract_date_start_none (localTz : Int) (v : VEvent) (d : PyDate)
    (hs : v.dtstart = some (DtValue.vdate d)) :
    extract_event_data localTz v = none := by
  unfold extract_event_data
  rw [hs]

lemma extract_timed_no_dtend (localTz : Int) (v : VEvent) (d : PyDate)
    (hour minute : Int) (tzo : Option Int)
    (hs : v.dtstart = some (DtValue.vdatetime d hour minute tzo))
    (he : v.dtend = none) :
    extract_event_data localTz v =
      some ⟨v.summary.getD "No Title", v.description.getD "", v.location.getD "",
        TimeVal.dateTime d hour minute (tzo.getD localTz),
        TimeVal.dateTime (addOneHour d hour minute).1
          (addOneHour d hour minute).2.1 (addOneHour d hour minute).2.2 localTz,
        false⟩ := by
  unfold extract_event_data
  rw [hs, he]

lemma extract_timed_with_timed_dtend (localTz : Int) (v : VEvent) (d : PyDate)
    (hour minute : Int) (tzo : Option Int) (d2 : PyDate) (h2 mi2 : Int)
    (tzo2 : Option Int)
    (hs : v.dtstart = some (DtValue.vdatetime d hour minute tzo))
    (he : v.dtend = some (DtValue.vdatetime d2 h2 mi2 tzo2)) :
    extract_event_data localTz v =
      some ⟨v.summary.getD "No Title", v.description.getD "", v.location.getD "",
        TimeVal.dateTime d hour minute (tzo.getD localTz),
        TimeVal.dateTime d2 h2 mi2 (tzo2.getD localTz), false⟩ := by
  unfold extract_event_data
  rw [hs, he]

lemma extract_timed_with_date_dtend_none (localTz : Int) (v : VEvent) (d : PyDate)
    (hour minute : Int) (tzo : Option Int) (d2 : PyDate)
    (hs : v.dtstart = some (DtValue.vdatetime d hour minute tzo))
    (he : v.dtend = some (DtValue.vdate d2)) :
    extract_event_data localTz v = none := by
  unfold extract_event_data
  rw [hs, he]

lemma ordinalOf_nextDay' {d : PyDate} (h : validDate d.year d.month d.day = true) :
    ordinalOf (nextDay d).year (nextDay d).month (nextDay d).day =
      ordinalOf d.year d.month d.day + 1 := by
  obtain ⟨y, m, dd⟩ := d
  exact ordinalOf_nextDay h

lemma extract_all_day_false {localTz : Int} {v : VEvent} {ed : EventData}
    (h : extract_event_data localTz v = some ed) : ed.all_day = false := by
  rcases hs : v.dtstart with _ | sv
  · rw [extract_none_of_no_dtstart localTz v hs] at h
    exact absurd h (by simp)
  rcases sv with d | ⟨d, hh, mm, tzo⟩
  · rw [extract_date_start_none localTz v d hs] at h
    exact absurd h (by simp)
  rcases he : v.dtend with _ | ev
  · rw [extract_timed_no_dtend localTz v d hh mm tzo hs he] at h
    obtain rfl := Option.some.inj h.symm
    rfl
  rcases ev with d2 | ⟨d2, h2, mi2, tzo2⟩
  · rw [extract_timed_with_date_dtend_none localTz v d hh mm tzo d2 hs he] at h
    exact absurd h (by simp)
  · rw [extract_timed_with_timed_dtend localTz v d hh mm tzo d2 h2 mi2 tzo2 hs he] at h
    obtain rfl := Option.some.inj h.symm
    rfl

/-! ## Claim theorems -/

/-- C1, counterexample: create-mode sync is not idempotent.  A first run over
2025 populates the remote calendar with the two tagged holiday events; a
second run with the same desired set still issues 2 inserts (not 0), although
for every inserted event a tagged remote event with the same title and start
date already exists. -/
theorem create_mode_not_idempotent_counterexample :
    syncRunCreate [] 2025 2025 = some (parentsEvents2025, parentsEvents2025) ∧
    syncRunCreate parentsEvents2025 2025 2025 =
      some (parentsEvents2025, parentsEvents2025 ++ parentsEvents2025) ∧
    parentsEvents2025.length = 2 ∧
    (∀ e ∈ parentsEvents2025, ∃ re ∈ parentsEvents2025,
      re.summary = e.summary ∧ re.startDate = e.startDate ∧
        re.colorId = some "5") := by
  decide

/-- C1, amended: create mode issues its inserts unconditionally, without
consulting the remote listing — the inserts of a run are exactly
`add_parents_days` of the year range, whatever the remote state, so a second
run re-inserts the same events. -/
theorem create_mode_unconditional_insert (remote : List GCalEvent) :
    (∀ y0 y1 : Int,
      (syncRunCreate remote y0 y1).map Prod.fst = add_parents_days y0 y1) ∧
    syncRunCreate remote 2025 2025 =
      some (parentsEvents2025, remote ++ parentsEvents2025) := by
  constructor
  · intro y0 y1
    cases h : add_parents_days y0 y1 <;> simp [syncRunCreate, h]
  · have h : add_parents_days 2025 2025 = some parentsEvents2025 := by decide
    rw [syncRunCreate, h]
    rfl

/-- C2: for a valid year, month and weekday and `1 ≤ n`, `get_nth_weekday`
returns the `n`-th day of the month (in calendar order) whose weekday is the
given one when `n` is at most the number of such days, and `None` when `n`
exceeds it. -/
theorem nth_weekday_correct (y m w n : Int)
    (hy1 : 1 ≤ y) (hy2 : y ≤ 9999) (hm1 : 1 ≤ m) (hm2 : m ≤ 12)
    (hw1 : 0 ≤ w) (hw2 : w ≤ 6) (hn : 1 ≤ n) :
    (n ≤ (monthMatches y m w).length →
      ∃ day, get_nth_weekday y m w n = .ok (some ⟨y, m, day⟩) ∧
        validDate y m day = true ∧ weekdayOf y m day = w ∧
        (monthMatches y m w).get? (n - 1).toNat = some day) ∧
    ((monthMatches y m w).length < n → get_nth_weekday y m w n = .ok none) := by
  have heq := get_nth_weekday_eq (w := w) hy1 hy2 hm1 hm2 hn
  constructor
  · intro hle
    have hlt : (n - 1).toNat < (monthMatches y m w).length := by omega
    have hsome := List.get?_eq_get hlt
    refine ⟨(monthMatches y m w).get ⟨(n - 1).toNat, hlt⟩, ?_, ?_, ?_, hsome⟩
    · rw [heq, hsome]
      rfl
    · have hmem : (monthMatches y m w).get ⟨(n - 1).toNat, hlt⟩ ∈
          monthMatches y m w := List.get_mem _ _ _
      unfold monthMatches at hmem
      have hp := (List.mem_filter.mp hmem).2
      simp only [Bool.and_eq_true, beq_iff_eq] at hp
      exact hp.1
    · have hmem : (monthMatches y m w).get ⟨(n - 1).toNat, hlt⟩ ∈
          monthMatches y m w := List.get_mem _ _ _
      unfold monthMatches at hmem
      have hp := (List.mem_filter.mp hmem).2
      simp only [Bool.and_eq_true, beq_iff_eq] at hp
      exact hp.2
  · intro hgt
    have hnone : (monthMatches y m w).get? (n - 1).toNat = none :=
      List.get?_eq_none.mpr (by omega)
    rw [heq, hnone]
    rfl

/-- C2, witness: the 2nd Sunday of May 2025 (Python weekday 6 = Sunday). -/
theorem nth_weekday_correct_witness :
    ∃ day, get_nth_weekday 2025 5 6 2 = .ok (some ⟨2025, 5, day⟩) ∧
      validDate 2025 5 day = true ∧ weekdayOf 2025 5 day = 6 ∧
      (monthMatches 2025 5 6).get? ((2 : Int) - 1).toNat = some day :=
  (nth_weekday_correct 2025 5 6 2 (by decide) (by decide) (by decide) (by decide)
    (by decide) (by decide) (by decide)).1 (by decide)

/-- C3, counterexample: an all-day VEVENT (bare-date `dtstart`, no `dtend`)
is dropped by the normalizer — `extract_event_data` returns `None`, not an
ALL_DAY event with `end = start + 1 day`, because the code calls
`start_dt.replace(tzinfo=tz.tzlocal())` on a `datetime.date`, which raises
`TypeError` and is swallowed by the blanket `except`. -/
theorem allday_vevent_counterexample :
    extract_event_data 0
      ⟨some "Mother\x27s Day", none, none,
        some (DtValue.vdate ⟨2025, 5, 11⟩), none⟩ = none := by
  decide

/-- C3, amended: every VEVENT whose `dtstart` is a bare date is Skipped
(normalization yields `None`), and no normalized event is ever marked
all-day. -/
theorem allday_vevent_skipped (localTz : Int) (v : VEvent) :
    (∀ d : PyDate, v.dtstart = some (DtValue.vdate d) →
      extract_event_data localTz v = none) ∧
    (∀ ed : EventData, extract_event_data localTz v = some ed →
      ed.all_day = false) :=
  ⟨fun d h => extract_date_start_none localTz v d h,
   fun _ h => extract_all_day_false h⟩

/-- C3, witness for the amended claim at a concrete all-day record. -/
theorem allday_vevent_skipped_witness :
    extract_event_data 0
      ⟨some "Trip", none, none, some (DtValue.vdate ⟨2025, 5, 11⟩),
        some (DtValue.vdate ⟨2025, 5, 12⟩)⟩ = none :=
  (allday_vevent_skipped 0
    ⟨some "Trip", none, none, some (DtValue.vdate ⟨2025, 5, 11⟩),
      some (DtValue.vdate ⟨2025, 5, 12⟩)⟩).1 ⟨2025, 5, 11⟩ rfl

/-- C4, counterexample: a non-positive occurrence index does not fail with a
distinct `InvalidArgument` error — `get_nth_weekday 2025 5 6 0` returns the
very same `None` that the genuine NotFound case (`n = 5`, only 4 Sundays in
May 2025) returns. -/
theorem nonpositive_n_counterexample :
    get_nth_weekday 2025 5 6 0 = .ok none ∧
    get_nth_weekday 2025 5 6 5 = .ok none ∧
    get_nth_weekday 2025 5 6 0 = get_nth_weekday 2025 5 6 5 := by
  decide

/-- C4, amended: for every `n ≤ 0` (and arguments in C-int range) the
resolver scans the whole month without the count ever reaching `n` and
returns `None`, indistinguishable from NotFound. -/
theorem nonpositive_n_returns_none (y m w n : Int)
    (hy : fitsCInt y = true) (hm : fitsCInt m = true) (hn : n ≤ 0) :
    get_nth_weekday y m w n = .ok none := by
  rw [get_nth_weekday]
  exact nthWeekdayGo_none_of_le hy hm 31 1 0 (by omega) (by norm_num) (by omega)

/-- C4, witness: the amended claim at `n = 0`. -/
theorem nonpositive_n_returns_none_witness :
    get_nth_weekday 2024 6 6 0 = .ok none :=
  nonpositive_n_returns_none 2024 6 6 0 (by decide) (by decide) (by decide)

/-- C5, counterexample: in the holiday create path, a failed insert aborts
the batch.  With a gateway that rejects the Mother's Day insert, the 2025 run
attempts only 1 of its 2 desired events and ends with the exception
propagating (completion flag `false`) — no aggregate summary is produced. -/
theorem create_failure_aborts_counterexample :
    add_parents_days_against failMothersGateway 2025 2025 =
      some ([mkParentsEvent "Mother\x27s Day" ⟨2025, 5, 11⟩], false) ∧
    (add_parents_days 2025 2025).map List.length = some 2 := by
  decide

/-- C5, amended: failure isolation holds only in the ICS import path —
`process_ics_file` attempts every event and reports a success count — while
the holiday create path stops at the first gateway failure. -/
theorem per_event_failure_by_path :
    (∀ (gw : EventData → Bool) (evs : List EventData),
      process_ics_events gw evs = (evs, (evs.filter gw).length)) ∧
    (∀ (gw : GCalEvent → Bool) (e : GCalEvent) (es : List GCalEvent),
      gw e = false → runInsertsSeq gw (e :: es) = ([e], false)) := by
  constructor
  · exact process_ics_events_eq
  · intro gw e es h
    rw [runInsertsSeq, if_neg (by simp [h])]

/-- C5, witness: the abort half of the amended claim at a concrete gateway
and batch. -/
theorem per_event_failure_by_path_witness :
    runInsertsSeq failMothersGateway
      (mkParentsEvent "Mother\x27s Day" ⟨2025, 5, 11⟩ ::
        [mkParentsEvent "Father\x27s Day" ⟨2025, 6, 15⟩]) =
      ([mkParentsEvent "Mother\x27s Day" ⟨2025, 5, 11⟩], false) :=
  per_event_failure_by_path.2 failMothersGateway
    (mkParentsEvent "Mother\x27s Day" ⟨2025, 5, 11⟩)
    [mkParentsEvent "Father\x27s Day" ⟨2025, 6, 15⟩] (by decide)

/-- C6: cleanup deletes exactly the listed events whose title is Mother's
Day or Father's Day and whose `colorId` differs from the reserved `'5'`
(including an absent marker), and nothing else; in the spec's scenario with
three Mother's Day events (markers `'5'`, absent, `'3'`) and one Unrelated
event, exactly the two non-reserved-marker Mother's Day events are
deleted. -/
theorem cleanup_deletes_exactly_non_yellow :
    (∀ evs : List RemoteEvent,
      delete_non_yellow_parents_days evs =
        evs.filter (fun e => decide (cleanupTargets e))) ∧
    delete_non_yellow_parents_days
        [⟨"rm1", some "Mother\x27s Day", some "5"⟩,
         ⟨"rm2", some "Mother\x27s Day", none⟩,
         ⟨"rm3", some "Mother\x27s Day", some "3"⟩,
         ⟨"rm4", some "Unrelated", none⟩] =
      [⟨"rm2", some "Mother\x27s Day", none⟩,
       ⟨"rm3", some "Mother\x27s Day", some "3"⟩] :=
  ⟨delete_non_yellow_eq_filter, by decide⟩

/-- C7: cleanup never issues a delete for a listed event whose title is
outside the interest set, whatever its marker. -/
theorem cleanup_never_deletes_foreign_titles (evs : List RemoteEvent)
    (e : RemoteEvent) (he : e ∈ evs)
    (ht : e.summary.getD "" ≠ "Mother\x27s Day" ∧
      e.summary.getD "" ≠ "Father\x27s Day") :
    e ∉ delete_non_yellow_parents_days evs := by
  intro hmem
  rcases (mem_delete_non_yellow hmem).2.1 with h | h
  · exact ht.1 h
  · exact ht.2 h

/-- C7, witness: a foreign-titled, unmarked event among deletable ones is
not deleted. -/
theorem cleanup_never_deletes_foreign_titles_witness :
    (⟨"rm4", some "Unrelated", none⟩ : RemoteEvent) ∉
      delete_non_yellow_parents_days
        [⟨"rm2", some "Mother\x27s Day", none⟩,
         ⟨"rm4", some "Unrelated", none⟩] :=
  cleanup_never_deletes_foreign_titles
    [⟨"rm2", some "Mother\x27s Day", none⟩, ⟨"rm4", some "Unrelated", none⟩]
    ⟨"rm4", some "Unrelated", none⟩ (by decide) (by decide)

/-- C8, counterexample: for a timed VEVENT with an explicit UTC start and no
end, with local timezone +02:00, the normalized end is `11:00+02:00` — the
start's timezone is not preserved and the end instant is 60 minutes before
the start, not one hour after it. -/
theorem timed_default_end_counterexample :
    ∃ ed, extract_event_data 120
        ⟨some "Meeting", none, none,
         some (DtValue.vdatetime ⟨2025, 1, 1⟩ 10 0 (some 0)), none⟩ = some ed ∧
      ed.start_time = TimeVal.dateTime ⟨2025, 1, 1⟩ 10 0 0 ∧
      ed.end_time = TimeVal.dateTime ⟨2025, 1, 1⟩ 11 0 120 ∧
      instantMinutes ed.end_time ≠ instantMinutes ed.start_time + 60 :=
  ⟨_, rfl, rfl, rfl, by decide⟩

/-- C8, amended: for a timed VEVENT with no `dtend`, the normalized end is
the start plus one hour in wall-clock terms with its timezone replaced by
the process-local timezone; it equals the start instant plus one hour
exactly when the start's effective timezone is the local one. -/
theorem timed_default_end_localized (localTz : Int) (v : VEvent) (d : PyDate)
    (hour minute : Int) (tzo : Option Int)
    (hs : v.dtstart = some (DtValue.vdatetime d hour minute tzo))
    (he : v.dtend = none) (hh1 : 0 ≤ hour) (hh2 : hour ≤ 23)
    (hvd : validDate d.year d.month d.day = true) :
    ∃ ed, extract_event_data localTz v = some ed ∧
      ed.start_time = TimeVal.dateTime d hour minute (tzo.getD localTz) ∧
      ed.end_time = TimeVal.dateTime (addOneHour d hour minute).1
        (addOneHour d hour minute).2.1 (addOneHour d hour minute).2.2 localTz ∧
      (tzo.getD localTz = localTz →
        instantMinutes ed.end_time = instantMinutes ed.start_time + 60) := by
  refine ⟨_, extract_timed_no_dtend localTz v d hour minute tzo hs he,
    rfl, rfl, ?_⟩
  intro htz
  simp only [instantMinutes, htz]
  by_cases hro : hour + 1 ≤ 23
  · simp only [addOneHour, if_pos hro]
    ring
  · simp only [addOneHour, if_neg hro]
    have hord := ordinalOf_nextDay' hvd
    have h23 : hour = 23 := by omega
    rw [hord, h23]
    ring

/-- C8, witness for the amended claim: a naive start at 23:30 rolls over to
the next day, with local timezone attached to both ends. -/
theorem timed_default_end_localized_witness :
    ∃ ed, extract_event_data 60
        ⟨some "Standup", none, none,
         some (DtValue.vdatetime ⟨2024, 12, 31⟩ 23 30 none), none⟩ = some ed ∧
      ed.start_time =
        TimeVal.dateTime ⟨2024, 12, 31⟩ 23 30 ((none : Option Int).getD 60) ∧
      ed.end_time = TimeVal.dateTime (addOneHour ⟨2024, 12, 31⟩ 23 30).1
        (addOneHour ⟨2024, 12, 31⟩ 23 30).2.1
        (addOneHour ⟨2024, 12, 31⟩ 23 30).2.2 60 ∧
      ((none : Option Int).getD 60 = 60 →
        instantMinutes ed.end_time = instantMinutes ed.start_time + 60) :=
  timed_default_end_localized 60
    ⟨some "Standup", none, none,
      some (DtValue.vdatetime ⟨2024, 12, 31⟩ 23 30 none), none⟩
    ⟨2024, 12, 31⟩ 23 30 none rfl rfl (by decide) (by decide) (by decide)

/-- C9: a VEVENT with no `dtstart` normalizes to Skip (`None`), and the
batch loop still processes every record around it: parsing a list with such
a record in the middle yields exactly the parses of the records before and
after it. -/
theorem missing_dtstart_skip (localTz : Int) (v : VEvent)
    (hv : v.dtstart = none) (xs ys : List VEvent) :
    extract_event_data localTz v = none ∧
    parse_ics_file localTz (xs ++ v :: ys) =
      parse_ics_file localTz xs ++ parse_ics_file localTz ys := by
  have hex := extract_none_of_no_dtstart localTz v hv
  refine ⟨hex, ?_⟩
  rw [parse_ics_file_append, parse_ics_file_skip_cons localTz v ys hex]

/-- C9, witness: a concrete malformed record between two timed records. -/
theorem missing_dtstart_skip_witness :
    extract_event_data 0 ⟨some "Broken", none, none, none, none⟩ = none ∧
    parse_ics_file 0
        ([⟨some "A", none, none,
            some (DtValue.vdatetime ⟨2025, 3, 1⟩ 9 0 none), none⟩] ++
          ⟨some "Broken", none, none, none, none⟩ ::
            [⟨some "B", none, none,
              some (DtValue.vdatetime ⟨2025, 3, 2⟩ 9 0 none), none⟩]) =
      parse_ics_file 0
          [⟨some "A", none, none,
            some (DtValue.vdatetime ⟨2025, 3, 1⟩ 9 0 none), none⟩] ++
        parse_ics_file 0
          [⟨some "B", none, none,
            some (DtValue.vdatetime ⟨2025, 3, 2⟩ 9 0 none), none⟩] :=
  missing_dtstart_skip 0 ⟨some "Broken", none, none, none, none⟩ rfl
    [⟨some "A", none, none, some (DtValue.vdatetime ⟨2025, 3, 1⟩ 9 0 none), none⟩]
    [⟨some "B", none, none, some (DtValue.vdatetime ⟨2025, 3, 2⟩ 9 0 none), none⟩]

/-- C10, counterexample: the resolver is not exception-free for every
integer input — a year beyond C-int range makes `datetime.date` raise
`OverflowError`, which the `except ValueError` clause does not catch, so the
call crashes instead of returning a date or `None`. -/
theorem resolver_overflow_counterexample :
    get_nth_weekday (2 ^ 70) 5 6 2 = .error () := by
  decide

/-- C10, amended: for every year and month that fit a C int (and any weekday
and occurrence index), the resolver terminates without an exception after
scanning at most days 1..31, returning `None` or a valid date of the given
month with the requested weekday; an in-range but invalid month ends the
scan immediately with `None`. -/
theorem resolver_total_in_cint_range (y m w n : Int)
    (hy : fitsCInt y = true) (hm : fitsCInt m = true) :
    (get_nth_weekday y m w n = .ok none ∨
      ∃ day, get_nth_weekday y m w n = .ok (some ⟨y, m, day⟩) ∧
        validDate y m day = true ∧ weekdayOf y m day = w) ∧
    (validDate y m 1 = false → get_nth_weekday y m w n = .ok none) := by
  constructor
  · by_cases hn : 1 ≤ n
    · rw [get_nth_weekday,
        nthWeekdayGo_eq hy hm 31 1 0 (by omega) (by norm_num) (by omega)]
      rcases hq : (matchesIn y m w 1 31).get? (n - 0 - 1).toNat with _ | day
      · left
        rfl
      · right
        refine ⟨day, rfl, ?_, ?_⟩
        · exact (matchesIn_mem (List.get?_mem hq)).1
        · exact (matchesIn_mem (List.get?_mem hq)).2
    · left
      rw [get_nth_weekday]
      exact nthWeekdayGo_none_of_le hy hm 31 1 0 (by omega) (by norm_num)
        (by omega)
  · intro hv
    rw [get_nth_weekday]
    show nthWeekdayGo y m w n 0 1 (30 + 1) = .ok none
    rw [nthWeekdayGo, if_pos (by rw [hy, hm]; decide), if_neg (by simp [hv])]

/-- C10, witness: month 13 is in C-int range but invalid, so the scan ends
at day 1 with `None`. -/
theorem resolver_total_in_cint_range_witness :
    get_nth_weekday 2025 13 6 1 = .ok none :=
  (resolver_total_in_cint_range 2025 13 6 1 (by decide) (by decide)).2 (by decide)

end Calendar
